import Mathlib

/-
  Verification of the library-analytics ETL system against its specification.

  The definitions below are shallow embeddings of:
  - src/pipelines/etl_framework.py        (ETLPipeline, DataQualityValidator)
  - src/archive/etl_system/monitoring/quality_monitor.py (DataQualityMonitor)
  - src/archive/etl_system/schedulers/pipeline_scheduler.py (PipelineScheduler)
-/

/-- Status values taken by pipeline_metrics.status in etl_framework.py
(strings pending / running / completed / failed). -/
inductive PipelineStatus
  | pending
  | running
  | completed
  | failed
deriving DecidableEq, Repr

/-- A pipeline component as the orchestrator sees it: BaseETLComponent.execute
takes the current inter-stage value (None for the first stage) and either
returns a result or raises; Except.error carries the raised message. -/
structure Component (α : Type) where
  name : String
  run : Option α → Except String α

/-- The pipeline metrics that ETLPipeline.execute returns, together with a
trace of the component invocations that actually happened: each entry records
the position of the component in the pipeline, the component itself, and the
inter-stage value passed to it as input. -/
structure ExecOutcome (α : Type) where
  status : PipelineStatus
  successful_components : Nat
  failed_components : Nat
  trace : List (Nat × Component α × Option α)

/-- The component loop of ETLPipeline.execute (etl_framework.py lines
323-344).  Starting from data = None, each component is executed on the
current value; on success the value is replaced by the result and the
component counts as successful; on an exception the component counts as
failed and, when stop_on_error is set (the default), the status becomes
failed and the loop stops (the re-raised ETLPipelineError unwinds the loop);
with stop_on_error unset the value is left unchanged (the assignment did not
happen) and the loop continues.  Falling off the end of the loop sets status
completed (line 344).  The counters are totalled on the way out of the
recursion, which gives the same final counts as the in-place increments of
the source.  The index argument numbers the components from the front. -/
def runComponents {α : Type} (stopOnError : Bool) :
    List (Component α) → Nat → Option α → ExecOutcome α
  | [], _, _ => ⟨.completed, 0, 0, []⟩
  | c :: rest, i, data =>
    match c.run data with
    | .ok d =>
      let o := runComponents stopOnError rest (i + 1) (some d)
      ⟨o.status, o.successful_components + 1, o.failed_components,
        (i, c, data) :: o.trace⟩
    | .error _ =>
      if stopOnError then
        ⟨.failed, 0, 1, [(i, c, data)]⟩
      else
        let o := runComponents stopOnError rest (i + 1) data
        ⟨o.status, o.successful_components, o.failed_components + 1,
          (i, c, data) :: o.trace⟩

/-- ETLPipeline.execute, viewed as the finished pipeline metrics it produces:
the component loop started at index 0 with data = None. -/
def ETLPipeline.execute {α : Type} (stopOnError : Bool)
    (components : List (Component α)) : ExecOutcome α :=
  runComponents stopOnError components 0 none

/-- ETLPipeline.execute as its caller observes it.  The component loop sits
inside try / except Exception / finally (lines 325, 347-359): the
ETLPipelineError re-raised by a stop_on_error abort is caught by that outer
handler, which logs, (re)sets status to failed, saves the results, and lets
the method return pipeline_metrics.  So the call always returns the metrics
and never propagates a component error. -/
def ETLPipeline.executeCaller {α : Type} (stopOnError : Bool)
    (components : List (Component α)) : Except String (ExecOutcome α) :=
  .ok (ETLPipeline.execute stopOnError components)

/-- ETLPipeline.add_component appends the component and increments
total_components, so after assembly total_components is the length of the
component list. -/
def totalComponents {α : Type} (components : List (Component α)) : Nat :=
  components.length

theorem runComponents_nil {α : Type} (stop : Bool) (i : Nat) (data : Option α) :
    runComponents stop ([] : List (Component α)) i data = ⟨.completed, 0, 0, []⟩ :=
  rfl

theorem runComponents_cons_ok {α : Type} (stop : Bool) (c : Component α)
    (rest : List (Component α)) (i : Nat) (data : Option α) (d : α)
    (hrun : c.run data = .ok d) :
    runComponents stop (c :: rest) i data =
      ⟨(runComponents stop rest (i + 1) (some d)).status,
        (runComponents stop rest (i + 1) (some d)).successful_components + 1,
        (runComponents stop rest (i + 1) (some d)).failed_components,
        (i, c, data) :: (runComponents stop rest (i + 1) (some d)).trace⟩ := by
  simp only [runComponents, hrun]

theorem runComponents_cons_error_stop {α : Type} (c : Component α)
    (rest : List (Component α)) (i : Nat) (data : Option α) (e : String)
    (hrun : c.run data = .error e) :
    runComponents true (c :: rest) i data = ⟨.failed, 0, 1, [(i, c, data)]⟩ := by
  simp only [runComponents, hrun, if_pos]

theorem runComponents_cons_error_cont {α : Type} (c : Component α)
    (rest : List (Component α)) (i : Nat) (data : Option α) (e : String)
    (hrun : c.run data = .error e) :
    runComponents false (c :: rest) i data =
      ⟨(runComponents false rest (i + 1) data).status,
        (runComponents false rest (i + 1) data).successful_components,
        (runComponents false rest (i + 1) data).failed_components + 1,
        (i, c, data) :: (runComponents false rest (i + 1) data).trace⟩ := by
  simp only [runComponents, hrun]
  rfl

/-- Every trace entry of the component loop has an index in the half-open
interval from the start index to start index plus the number of components. -/
theorem runComponents_trace_indices {α : Type} (stop : Bool)
    (comps : List (Component α)) (i : Nat) (data : Option α) :
    ∀ p ∈ (runComponents stop comps i data).trace,
      i ≤ p.1 ∧ p.1 < i + comps.length := by
  induction comps generalizing i data with
  | nil => intro p hp; simp [runComponents_nil] at hp
  | cons c rest ih =>
    intro p hp
    cases hrun : c.run data with
    | ok d =>
      rw [runComponents_cons_ok stop c rest i data d hrun] at hp
      simp only [List.mem_cons] at hp
      rcases hp with h | h
      · subst h; simp
      · have := ih (i + 1) (some d) p h
        exact ⟨by omega, by simp only [List.length_cons]; omega⟩
    | error e =>
      cases stop with
      | true =>
        rw [runComponents_cons_error_stop c rest i data e hrun] at hp
        simp at hp
        subst hp
        simp
      | false =>
        rw [runComponents_cons_error_cont c rest i data e hrun] at hp
        simp only [List.mem_cons] at hp
        rcases hp with h | h
        · subst h; simp
        · have := ih (i + 1) data p h
          exact ⟨by omega, by simp only [List.length_cons]; omega⟩

/-- With stop_on_error set, a trace entry whose component raises on its input
forces the final status to failed, and no entry of the trace lies past it. -/
theorem runComponents_stop_failed {α : Type}
    (comps : List (Component α)) (i : Nat) (data : Option α)
    (k : Nat) (c : Component α) (d : Option α) (e : String)
    (hmem : (k, c, d) ∈ (runComponents true comps i data).trace)
    (herr : c.run d = .error e) :
    (runComponents true comps i data).status = .failed ∧
      ∀ p ∈ (runComponents true comps i data).trace, p.1 ≤ k := by
  induction comps generalizing i data with
  | nil => simp [runComponents_nil] at hmem
  | cons c0 rest ih =>
    cases hrun : c0.run data with
    | ok v =>
      rw [runComponents_cons_ok true c0 rest i data v hrun] at hmem ⊢
      simp only [List.mem_cons] at hmem
      rcases hmem with h | h
      · -- the failing entry would be the head, but the head succeeded
        have hc : c = c0 := congrArg (fun q => q.2.1) h
        have hd : d = data := congrArg (fun q => q.2.2) h
        rw [hc, hd, hrun] at herr
        exact absurd herr (by simp)
      · have ⟨hst, hall⟩ := ih (i + 1) (some v) h
        refine ⟨hst, ?_⟩
        intro p hp
        simp only [List.mem_cons] at hp
        rcases hp with hp | hp
        · subst hp
          have := (runComponents_trace_indices true rest (i + 1) (some v)) _ h
          simp only at this
          omega
        · exact hall p hp
    | error e0 =>
      rw [runComponents_cons_error_stop c0 rest i data e0 hrun] at hmem ⊢
      simp at hmem
      refine ⟨rfl, ?_⟩
      intro p hp
      simp at hp
      subst hp
      omega

/-- A trace entry at the start index always carries the initial data value:
the first invoked component receives exactly the data the loop started with. -/
theorem runComponents_head_input {α : Type} (stop : Bool)
    (comps : List (Component α)) (i : Nat) (data : Option α)
    (c' : Component α) (d' : Option α)
    (h : (i, c', d') ∈ (runComponents stop comps i data).trace) : d' = data := by
  cases comps with
  | nil => simp [runComponents_nil] at h
  | cons c0 rest =>
    cases hrun : c0.run data with
    | ok v =>
      rw [runComponents_cons_ok stop c0 rest i data v hrun] at h
      simp only [List.mem_cons] at h
      rcases h with h | h
      · exact congrArg (fun q => q.2.2) h
      · have := runComponents_trace_indices stop rest (i + 1) (some v) _ h
        simp only at this
        omega
    | error e =>
      cases stop with
      | true =>
        rw [runComponents_cons_error_stop c0 rest i data e hrun] at h
        simp at h
        exact h.2
      | false =>
        rw [runComponents_cons_error_cont c0 rest i data e hrun] at h
        simp only [List.mem_cons] at h
        rcases h with h | h
        · exact congrArg (fun q => q.2.2) h
        · have := runComponents_trace_indices false rest (i + 1) data _ h
          simp only at this
          omega

/-- On a nonempty component list the loop always invokes the first component,
with the initial data as input. -/
theorem runComponents_head_mem {α : Type} (stop : Bool) (c0 : Component α)
    (rest : List (Component α)) (i : Nat) (data : Option α) :
    (i, c0, data) ∈ (runComponents stop (c0 :: rest) i data).trace := by
  cases hrun : c0.run data with
  | ok v =>
    rw [runComponents_cons_ok stop c0 rest i data v hrun]
    exact List.mem_cons_self _ _
  | error e =>
    cases stop with
    | true =>
      rw [runComponents_cons_error_stop c0 rest i data e hrun]
      exact List.mem_cons_self _ _
    | false =>
      rw [runComponents_cons_error_cont c0 rest i data e hrun]
      exact List.mem_cons_self _ _

/-- Without stop_on_error, after the component at position k raised on input
d, the entry at position k + 1 (when within bounds) exists and carries the
same input d, and every entry at position k + 1 carries input d. -/
theorem runComponents_cont_next_input {α : Type}
    (comps : List (Component α)) (i : Nat) (data : Option α)
    (k : Nat) (c : Component α) (d : Option α) (e : String)
    (hmem : (k, c, d) ∈ (runComponents false comps i data).trace)
    (herr : c.run d = .error e) :
    (∀ c2 d2, (k + 1, c2, d2) ∈ (runComponents false comps i data).trace → d2 = d) ∧
      (k + 1 < i + comps.length →
        ∃ c2, (k + 1, c2, d) ∈ (runComponents false comps i data).trace) := by
  induction comps generalizing i data with
  | nil => simp [runComponents_nil] at hmem
  | cons c0 rest ih =>
    cases hrun : c0.run data with
    | ok v =>
      rw [runComponents_cons_ok false c0 rest i data v hrun] at hmem ⊢
      simp only [List.mem_cons] at hmem
      rcases hmem with h | h
      · -- head entry succeeded, but the hypothesis says it raised
        have hc : c = c0 := congrArg (fun q => q.2.1) h
        have hd : d = data := congrArg (fun q => q.2.2) h
        rw [hc, hd, hrun] at herr
        exact absurd herr (by simp)
      · have hk := runComponents_trace_indices false rest (i + 1) (some v) _ h
        simp only at hk
        have ⟨ih1, ih2⟩ := ih (i + 1) (some v) h
        constructor
        · intro c2 d2 hp
          simp only [List.mem_cons] at hp
          rcases hp with hp | hp
          · have : k + 1 = i := congrArg Prod.fst hp
            omega
          · exact ih1 c2 d2 hp
        · intro hlt
          simp only [List.length_cons] at hlt
          have ⟨c2, hc2⟩ := ih2 (by omega)
          exact ⟨c2, List.mem_cons_of_mem _ hc2⟩
    | error e0 =>
      rw [runComponents_cons_error_cont c0 rest i data e0 hrun] at hmem ⊢
      simp only [List.mem_cons] at hmem
      rcases hmem with h | h
      · -- the raising entry is the head: the next stage keeps the same data
        have hki : k = i := congrArg Prod.fst h
        have hd : d = data := congrArg (fun q => q.2.2) h
        constructor
        · intro c2 d2 hp
          simp only [List.mem_cons] at hp
          rcases hp with hp | hp
          · have : k + 1 = i := congrArg Prod.fst hp
            omega
          · have : (i + 1, c2, d2) ∈ (runComponents false rest (i + 1) data).trace := by
              rw [← hki] at hp ⊢
              exact hp
            rw [hd]
            exact runComponents_head_input false rest (i + 1) data c2 d2 this
        · intro hlt
          simp only [List.length_cons] at hlt
          cases rest with
          | nil => simp at hlt; omega
          | cons c1 rest2 =>
            refine ⟨c1, List.mem_cons_of_mem _ ?_⟩
            have := runComponents_head_mem false c1 rest2 (i + 1) data
            rw [hki, hd]
            exact this
      · have hk := runComponents_trace_indices false rest (i + 1) data _ h
        simp only at hk
        have ⟨ih1, ih2⟩ := ih (i + 1) data h
        constructor
        · intro c2 d2 hp
          simp only [List.mem_cons] at hp
          rcases hp with hp | hp
          · have : k + 1 = i := congrArg Prod.fst hp
            omega
          · exact ih1 c2 d2 hp
        · intro hlt
          simp only [List.length_cons] at hlt
          have ⟨c2, hc2⟩ := ih2 (by omega)
          exact ⟨c2, List.mem_cons_of_mem _ hc2⟩

/-- Without stop_on_error every component is counted exactly once, as a
success or as a failure. -/
theorem runComponents_cont_counts {α : Type}
    (comps : List (Component α)) (i : Nat) (data : Option α) :
    (runComponents false comps i data).successful_components +
      (runComponents false comps i data).failed_components = comps.length := by
  induction comps generalizing i data with
  | nil => simp [runComponents_nil]
  | cons c0 rest ih =>
    cases hrun : c0.run data with
    | ok v =>
      rw [runComponents_cons_ok false c0 rest i data v hrun]
      simp only [List.length_cons]
      have := ih (i + 1) (some v)
      omega
    | error e =>
      rw [runComponents_cons_error_cont c0 rest i data e hrun]
      simp only [List.length_cons]
      have := ih (i + 1) data
      omega

/-- A concrete extractor-like component: ignores its input and produces 7. -/
def extractSeven : Component Nat := ⟨"extract_seven", fun _ => .ok 7⟩

/-- A concrete component that always raises. -/
def alwaysBoom : Component Nat := ⟨"always_boom", fun _ => .error "boom"⟩

/-- A concrete transformer-like component: adds one to its input. -/
def addOne : Component Nat :=
  ⟨"add_one", fun x => match x with
    | some n => .ok (n + 1)
    | none => .error "no input"⟩

/-- C1: for every pipeline executed with stop_on_error true (the default),
if the component at position k raised during the run, then no component
after position k was executed (every trace entry has position at most k)
and the finished pipeline metrics have status failed. -/
theorem stop_on_error_halts_and_fails {α : Type} (comps : List (Component α))
    (k : Nat) (c : Component α) (d : Option α) (e : String)
    (hmem : (k, c, d) ∈ (ETLPipeline.execute true comps).trace)
    (herr : c.run d = .error e) :
    (ETLPipeline.execute true comps).status = .failed ∧
      ∀ p ∈ (ETLPipeline.execute true comps).trace, p.1 ≤ k :=
  runComponents_stop_failed comps 0 none k c d e hmem herr

/-- Witness for C1 on a three-component pipeline whose second component
raises: status is failed and nothing past position 1 ran. -/
theorem stop_on_error_halts_and_fails_witness :
    (ETLPipeline.execute true [extractSeven, alwaysBoom, addOne]).status = .failed ∧
      ∀ p ∈ (ETLPipeline.execute true [extractSeven, alwaysBoom, addOne]).trace,
        p.1 ≤ 1 :=
  stop_on_error_halts_and_fails [extractSeven, alwaysBoom, addOne]
    1 alwaysBoom (some 7) "boom"
    (by simp [ETLPipeline.execute, runComponents, extractSeven, alwaysBoom])
    rfl

/-- C2 counterexample: with stop_on_error true and a failing component, the
call to ETLPipeline.execute returns normally, handing back metrics with
status failed, instead of raising: the outer except-Exception block of
execute catches the re-raised ETLPipelineError. -/
theorem execute_propagates_error_cex :
    ETLPipeline.executeCaller true [alwaysBoom] =
      .ok ⟨.failed, 0, 1, [(0, alwaysBoom, none)]⟩ :=
  rfl

/-- C2 (amended): with stop_on_error true, when a component fails,
ETLPipeline.execute does not propagate the component error to its caller:
the call returns normally, and the returned metrics have status failed. -/
theorem execute_returns_failed_metrics {α : Type} (comps : List (Component α))
    (k : Nat) (c : Component α) (d : Option α) (e : String)
    (hmem : (k, c, d) ∈ (ETLPipeline.execute true comps).trace)
    (herr : c.run d = .error e) :
    ∃ o, ETLPipeline.executeCaller true comps = .ok o ∧ o.status = .failed :=
  ⟨ETLPipeline.execute true comps, rfl,
    (runComponents_stop_failed comps 0 none k c d e hmem herr).1⟩

/-- Witness for the amended C2 on a one-component failing pipeline. -/
theorem execute_returns_failed_metrics_witness :
    ∃ o, ETLPipeline.executeCaller true [alwaysBoom] = .ok o ∧
      o.status = .failed :=
  execute_returns_failed_metrics [alwaysBoom] 0 alwaysBoom none "boom"
    (by simp [ETLPipeline.execute, runComponents, alwaysBoom])
    rfl

/-- C9: for every pipeline executed with stop_on_error false, after execute
returns, successful_components plus failed_components equals
total_components: every added component is attempted and counted exactly
once as either a success or a failure. -/
theorem counts_partition_components {α : Type} (comps : List (Component α)) :
    (ETLPipeline.execute false comps).successful_components +
      (ETLPipeline.execute false comps).failed_components =
      totalComponents comps :=
  runComponents_cont_counts comps 0 none

/-- C10: with stop_on_error false, when the component at position k raised,
the component at position k + 1 is invoked with exactly the input that
position k received: every trace entry at position k + 1 carries that same
input, and such an entry exists whenever position k + 1 is still within the
pipeline. -/
theorem failed_stage_leaves_data_unchanged {α : Type}
    (comps : List (Component α)) (k : Nat) (c : Component α) (d : Option α)
    (e : String)
    (hmem : (k, c, d) ∈ (ETLPipeline.execute false comps).trace)
    (herr : c.run d = .error e) :
    (∀ c2 d2, (k + 1, c2, d2) ∈ (ETLPipeline.execute false comps).trace →
        d2 = d) ∧
      (k + 1 < comps.length →
        ∃ c2, (k + 1, c2, d) ∈ (ETLPipeline.execute false comps).trace) := by
  have h := runComponents_cont_next_input comps 0 none k c d e hmem herr
  simpa using h

/-- Witness for C10: the first component fails on input none, and the second
component is then invoked with that same input none. -/
theorem failed_stage_leaves_data_unchanged_witness :
    (∀ c2 d2,
        (0 + 1, c2, d2) ∈ (ETLPipeline.execute false [alwaysBoom, extractSeven]).trace →
          d2 = none) ∧
      (0 + 1 < ([alwaysBoom, extractSeven] : List (Component Nat)).length →
        ∃ c2, (0 + 1, c2, (none : Option Nat)) ∈
          (ETLPipeline.execute false [alwaysBoom, extractSeven]).trace) :=
  failed_stage_leaves_data_unchanged [alwaysBoom, extractSeven] 0 alwaysBoom
    none "boom"
    (by simp [ETLPipeline.execute, runComponents, alwaysBoom, extractSeven])
    rfl

/-- Rule severity as read by validate via rule.get with default warning. -/
inductive Severity
  | warning
  | error
deriving DecidableEq, Repr

/-- A quality rule as DataQualityValidator consumes it.  The per-rule-type
computation of _validate_rule (not_null / unique / range / pattern /
completeness over a pandas frame) is abstracted into the boolean field
evalRule, which is the passed flag of the rule result it returns for a given
dataset; severity is the declared severity of the rule, defaulting to
warning in the source.  D is the type of datasets. -/
structure QRule (D : Type) where
  name : String
  evalRule : D → Bool
  severity : Severity

/-- The aggregate record built by DataQualityValidator.validate (lines
154-176).  rule_results keeps, per rule in order, its name, its passed flag
and its severity. -/
structure ValidationResults where
  passed : Bool
  total_rules : Nat
  passed_rules : Nat
  failed_rules : Nat
  rule_results : List (String × Bool × Severity)
deriving DecidableEq, Repr

/-- DataQualityValidator.validate: start from passed = true, evaluate each
rule in order, append its result, bump passed_rules or failed_rules, and
flip passed to false when a failed rule has declared severity error.  The
recursion processes the head rule and merges with the totals of the rest,
which yields the same aggregate as the in-place loop of the source. -/
def validateRules {D : Type} : List (QRule D) → D → ValidationResults
  | [], _ => ⟨true, 0, 0, 0, []⟩
  | r :: rest, data =>
    let rp := r.evalRule data
    let acc := validateRules rest data
    { passed := if !rp && r.severity == .error then false else acc.passed
      total_rules := acc.total_rules + 1
      passed_rules := if rp then acc.passed_rules + 1 else acc.passed_rules
      failed_rules := if rp then acc.failed_rules else acc.failed_rules + 1
      rule_results := (r.name, rp, r.severity) :: acc.rule_results }

/-- The configuration map handed to DataQualityValidator; callers in the
repository pass a strict_mode key in it. -/
structure DQVConfig where
  strict_mode : Bool
deriving DecidableEq, Repr

/-- DataQualityValidator.execute (lines 257-287): run validate; if the
aggregate passed flag is false, collect the failed results with severity
error, and if there are any, raise DataQualityError; otherwise log the
failed warnings and return the data unchanged.  The configuration is
accepted but never consulted by the body. -/
def DataQualityValidator.executeRun {D : Type} (rules : List (QRule D))
    (config : DQVConfig) (data : D) : Except String D :=
  let results := validateRules rules data
  if !results.passed then
    let failedErrors := results.rule_results.filter
      (fun r => !r.2.1 && r.2.2 == Severity.error)
    if failedErrors.isEmpty then .ok data
    else .error "DataQualityError"
  else .ok data

theorem validateRules_rule_results {D : Type} (rules : List (QRule D)) (data : D) :
    (validateRules rules data).rule_results =
      rules.map (fun r => (r.name, r.evalRule data, r.severity)) := by
  induction rules with
  | nil => rfl
  | cons r rest ih => simp [validateRules, ih]

theorem validateRules_failed_count {D : Type} (rules : List (QRule D)) (data : D) :
    (validateRules rules data).failed_rules =
      (rules.filter (fun r => !r.evalRule data)).length := by
  induction rules with
  | nil => rfl
  | cons r rest ih =>
    simp only [validateRules, List.filter_cons]
    cases h : r.evalRule data <;> simp [h, ih]

theorem validateRules_total {D : Type} (rules : List (QRule D)) (data : D) :
    (validateRules rules data).total_rules = rules.length := by
  induction rules with
  | nil => rfl
  | cons r rest ih => simp [validateRules, ih]

theorem validateRules_passed_iff {D : Type} (rules : List (QRule D)) (data : D) :
    (validateRules rules data).passed = false ↔
      ∃ r ∈ rules, r.evalRule data = false ∧ r.severity = Severity.error := by
  induction rules with
  | nil => simp [validateRules]
  | cons r rest ih =>
    cases hev : r.evalRule data with
    | false =>
      cases hsev : r.severity with
      | error => simp [validateRules, hev, hsev, ih]
      | warning => simp [validateRules, hev, hsev, ih]
    | true => simp [validateRules, hev, ih]

/-- C4: for every rule set and dataset, the aggregate passed flag is false
exactly when at least one declared-error-severity rule failed; failing
warning-severity rules are counted in failed_rules and recorded in
rule_results but never make passed false (failed_rules counts every failed
rule of either severity, rule_results records every rule in order, and
total_rules counts them all). -/
theorem validate_passed_iff_error_rule_failed {D : Type}
    (rules : List (QRule D)) (data : D) :
    ((validateRules rules data).passed = false ↔
        ∃ r ∈ rules, r.evalRule data = false ∧ r.severity = Severity.error) ∧
      (validateRules rules data).failed_rules =
        (rules.filter (fun r => !r.evalRule data)).length ∧
      (validateRules rules data).rule_results =
        rules.map (fun r => (r.name, r.evalRule data, r.severity)) ∧
      (validateRules rules data).total_rules = rules.length :=
  ⟨validateRules_passed_iff rules data, validateRules_failed_count rules data,
    validateRules_rule_results rules data, validateRules_total rules data⟩

/-- A concrete error-severity rule that fails on every dataset. -/
def failingErrorRule : QRule Unit := ⟨"err_rule", fun _ => false, Severity.error⟩

/-- C3 counterexample: with strict mode not enabled in the configuration, a
failed error-severity rule still makes DataQualityValidator.execute raise
DataQualityError: the body never consults the strict_mode key. -/
theorem strict_mode_gates_raise_cex :
    DataQualityValidator.executeRun [failingErrorRule] ⟨false⟩ () =
      .error "DataQualityError" :=
  rfl

/-- C3 (amended): DataQualityValidator.execute raises DataQualityError
exactly when at least one declared-error-severity rule failed, for every
configuration (strict mode enabled or not); failed warning-severity rules
never cause a raise, and otherwise the data is returned unchanged. -/
theorem execute_raises_iff_error_rule_failed {D : Type}
    (rules : List (QRule D)) (config : DQVConfig) (data : D) :
    (DataQualityValidator.executeRun rules config data = .error "DataQualityError" ↔
        ∃ r ∈ rules, r.evalRule data = false ∧ r.severity = Severity.error) ∧
      (DataQualityValidator.executeRun rules config data = .error "DataQualityError" ∨
        DataQualityValidator.executeRun rules config data = .ok data) := by
  constructor
  · unfold DataQualityValidator.executeRun
    cases hp : (validateRules rules data).passed with
    | true =>
      simp only [hp]
      constructor
      · intro h; simp at h
      · intro hex
        have := (validateRules_passed_iff rules data).mpr hex
        rw [hp] at this
        exact absurd this (by simp)
    | false =>
      have hex := (validateRules_passed_iff rules data).mp hp
      obtain ⟨r, hr, hfail, hsev⟩ := hex
      have hne : ¬((validateRules rules data).rule_results.filter
          (fun q => !q.2.1 && q.2.2 == Severity.error)).isEmpty = true := by
        rw [validateRules_rule_results]
        rw [List.filter_map]
        simp only [List.isEmpty_iff, List.map_eq_nil]
        intro hnil
        rw [List.filter_eq_nil] at hnil
        exact absurd (by simp [hfail, hsev] : ((fun q => !q.2.1 && q.2.2 == Severity.error) ∘
          fun r => (r.name, r.evalRule data, r.severity)) r = true) (by simpa using hnil r hr)
      simp only [hp, Bool.not_false, if_pos]
      rw [if_neg (by simpa using hne)]
      constructor
      · intro _; exact ⟨r, hr, hfail, hsev⟩
      · intro _; rfl
  · unfold DataQualityValidator.executeRun
    cases hp : (validateRules rules data).passed with
    | true => right; simp [hp]
    | false =>
      by_cases hemp : ((validateRules rules data).rule_results.filter
          (fun q => !q.2.1 && q.2.2 == Severity.error)).isEmpty = true
      · right; simp [hp, hemp]
      · left; simp [hp, hemp]

/-- Alert severity levels of quality_monitor.py (AlertLevel enum). -/
inductive AlertLevel
  | info
  | warning
  | error
  | critical
deriving DecidableEq, Repr

/-- Quality metric status: analyze sets the status string to pass or fail. -/
inductive MetricStatus
  | pass
  | fail
deriving DecidableEq, Repr

/-- Metric types of quality_monitor.py (MetricType enum). -/
inductive MetricType
  | completeness
  | accuracy
  | consistency
  | timeliness
  | validity
  | uniqueness
deriving DecidableEq, Repr

/-- A quality metric record (QualityMetric dataclass); values and thresholds
are modelled as rationals, timestamps as opaque strings. -/
structure QualityMetric where
  name : String
  value : ℚ
  threshold : ℚ
  metric_type : MetricType
  status : MetricStatus
  message : String
  timestamp : String
deriving DecidableEq

/-- An alert record (Alert dataclass plus the persisted row). -/
structure Alert where
  id : String
  level : AlertLevel
  title : String
  message : String
  pipeline_name : String
  metric_name : String
  threshold : ℚ
  actual_value : ℚ
  timestamp : String
  acknowledged : Bool
deriving DecidableEq

/-- The deterministic alert id (line 490): the md5 digest of the string
pipeline_metricname_timestamp.  The digest is a function of this key string,
so two alerts receive the same id exactly when the key coincides; the model
uses the key string itself as the id. -/
def alertId (pipeline_name metric_name timestamp : String) : String :=
  pipeline_name ++ "_" ++ metric_name ++ "_" ++ timestamp

/-- The severity tiering of _generate_alerts (lines 481-487): critical when
the value is below half the threshold, error when below eight tenths of it,
warning otherwise. -/
def alertLevelFor (m : QualityMetric) : AlertLevel :=
  if m.value < m.threshold * (1/2) then AlertLevel.critical
  else if m.value < m.threshold * (4/5) then AlertLevel.error
  else AlertLevel.warning

/-- The alert constructed for a failed metric (lines 489-503); the message
formatting that appends the threshold percentage is kept as the raw metric
message. -/
def mkAlert (pipeline_name : String) (m : QualityMetric) : Alert :=
  { id := alertId pipeline_name m.name m.timestamp
    level := alertLevelFor m
    title := "Data Quality Alert: " ++ m.name
    message := m.message
    pipeline_name := pipeline_name
    metric_name := m.name
    threshold := m.threshold
    actual_value := m.value
    timestamp := m.timestamp
    acknowledged := false }

/-- The alerts created by one call of _generate_alerts (lines 479-520): one
alert per metric with status fail, in order; passing metrics are skipped. -/
def generateAlerts (metrics : List QualityMetric) (pipeline_name : String) :
    List Alert :=
  metrics.filterMap (fun m =>
    if m.status = MetricStatus.fail then some (mkAlert pipeline_name m)
    else none)

/-- INSERT OR REPLACE on the alerts table, whose primary key is id (lines
120-136, 506-520): any stored row with the same id is removed and the new
row is inserted. -/
def insertOrReplaceAlert (store : List Alert) (a : Alert) : List Alert :=
  store.filter (fun b => b.id ≠ a.id) ++ [a]

/-- The store after one _generate_alerts call: each created alert is written
with insert-or-replace semantics. -/
def storeAlerts (store : List Alert) (metrics : List QualityMetric)
    (pipeline_name : String) : List Alert :=
  (generateAlerts metrics pipeline_name).foldl insertOrReplaceAlert store

/-- acknowledge_alert (lines 768-785): set the acknowledged flag of the rows
with the given id; no id changes. -/
def acknowledgeAlert (store : List Alert) (alert_id : String) : List Alert :=
  store.map (fun b =>
    if b.id = alert_id then { b with acknowledged := true } else b)

/-- The invariant of the alerts table: no two rows share an id. -/
def AlertIdsNodup (store : List Alert) : Prop :=
  (store.map Alert.id).Nodup

instance : DecidablePred AlertIdsNodup := fun store =>
  inferInstanceAs (Decidable (store.map Alert.id).Nodup)

theorem insertOrReplaceAlert_nodup (store : List Alert) (a : Alert)
    (h : AlertIdsNodup store) : AlertIdsNodup (insertOrReplaceAlert store a) := by
  unfold AlertIdsNodup insertOrReplaceAlert
  rw [List.map_append]
  apply List.Nodup.append
  · exact List.Nodup.sublist (List.Sublist.map _ (List.filter_sublist store)) h
  · simp
  · intro x hx hy
    simp only [List.map_cons, List.map_nil, List.mem_singleton] at hy
    subst hy
    simp only [List.mem_map] at hx
    obtain ⟨b, hb, hbid⟩ := hx
    have := List.of_mem_filter hb
    simp at this
    exact this hbid

theorem filter_ne_length_of_mem (store : List Alert) (aid : String)
    (h : (store.map Alert.id).Nodup) (hm : aid ∈ store.map Alert.id) :
    (store.filter (fun b => b.id ≠ aid)).length + 1 = store.length := by
  induction store with
  | nil => simp at hm
  | cons b rest ih =>
    simp only [List.map_cons, List.nodup_cons] at h
    simp only [List.map_cons, List.mem_cons] at hm
    rcases hm with heq | hmem
    · subst heq
      rw [List.filter_cons_of_neg (by simp)]
      have hall : rest.filter (fun b2 => b2.id ≠ b.id) = rest := by
        apply List.filter_eq_self.mpr
        intro b2 hb2
        simp only [ne_eq, decide_eq_true_eq, decide_not]
        simp only [Bool.not_eq_true', decide_eq_false_iff_not]
        intro hcontra
        exact h.1 (by exact List.mem_map.mpr ⟨b2, hb2, hcontra⟩)
      rw [hall]
      simp
    · have hbne : b.id ≠ aid := by
        intro hcontra
        rw [hcontra] at h
        exact h.1 hmem
      rw [List.filter_cons_of_pos (by simpa using hbne)]
      simp only [List.length_cons]
      rw [← ih h.2 hmem]

theorem insertOrReplaceAlert_replaces (store : List Alert) (a : Alert)
    (h : AlertIdsNodup store) (hm : a.id ∈ store.map Alert.id) :
    (insertOrReplaceAlert store a).length = store.length ∧
      a ∈ insertOrReplaceAlert store a ∧
      ∀ b ∈ insertOrReplaceAlert store a, b.id = a.id → b = a := by
  refine ⟨?_, ?_, ?_⟩
  · unfold insertOrReplaceAlert
    rw [List.length_append]
    simpa using filter_ne_length_of_mem store a.id h hm
  · unfold insertOrReplaceAlert
    simp
  · intro b hb hbid
    unfold insertOrReplaceAlert at hb
    rw [List.mem_append] at hb
    rcases hb with hb | hb
    · have := List.of_mem_filter hb
      simp at this
      exact absurd hbid this
    · simpa using hb

theorem storeAlerts_nodup (metrics : List QualityMetric) (p : String)
    (store : List Alert) (h : AlertIdsNodup store) :
    AlertIdsNodup (storeAlerts store metrics p) := by
  unfold storeAlerts
  generalize generateAlerts metrics p = created
  induction created generalizing store with
  | nil => exact h
  | cons a rest ih =>
    simp only [List.foldl_cons]
    exact ih _ (insertOrReplaceAlert_nodup store a h)

theorem acknowledgeAlert_ids (store : List Alert) (aid : String) :
    (acknowledgeAlert store aid).map Alert.id = store.map Alert.id := by
  unfold acknowledgeAlert
  rw [List.map_map]
  apply List.map_congr_left
  intro b _
  by_cases hb : b.id = aid <;> simp [hb]

/-- C6: the alert store never holds two alerts with the same id.  Writing an
alert whose deterministic id equals the id of a stored alert replaces that
record instead of adding a second one (the store keeps its length, the new
record is present, and it is the only record with that id), and the
uniqueness invariant is preserved by every operation that writes alerts:
the insert-or-replace write itself, a whole _generate_alerts pass, and
acknowledge_alert. -/
theorem alert_store_ids_unique (store : List Alert) (a : Alert)
    (metrics : List QualityMetric) (p : String) (aid : String)
    (h : AlertIdsNodup store) :
    AlertIdsNodup (insertOrReplaceAlert store a) ∧
      (a.id ∈ store.map Alert.id →
        (insertOrReplaceAlert store a).length = store.length ∧
          a ∈ insertOrReplaceAlert store a ∧
          ∀ b ∈ insertOrReplaceAlert store a, b.id = a.id → b = a) ∧
      AlertIdsNodup (storeAlerts store metrics p) ∧
      AlertIdsNodup (acknowledgeAlert store aid) := by
  refine ⟨insertOrReplaceAlert_nodup store a h, ?_, storeAlerts_nodup metrics p store h, ?_⟩
  · intro hm
    exact insertOrReplaceAlert_replaces store a h hm
  · unfold AlertIdsNodup
    rw [acknowledgeAlert_ids]
    exact h

/-- A concrete stored alert. -/
def alertA : Alert :=
  { id := alertId "p" "completeness_email" "t"
    level := AlertLevel.warning
    title := "Data Quality Alert: completeness_email"
    message := ""
    pipeline_name := "p"
    metric_name := "completeness_email"
    threshold := 19/20
    actual_value := 9/10
    timestamp := "t"
    acknowledged := false }

/-- A re-evaluated alert for the same pipeline, metric and timestamp: it has
the same deterministic id as alertA but a different value. -/
def alertB : Alert :=
  { alertA with actual_value := 2/5, level := AlertLevel.critical }

/-- Witness for C6: re-inserting an alert with the identical key replaces
the stored record, and the invariant is kept by each writing operation. -/
theorem alert_store_ids_unique_witness :
    AlertIdsNodup (insertOrReplaceAlert [alertA] alertB) ∧
      (alertB.id ∈ [alertA].map Alert.id →
        (insertOrReplaceAlert [alertA] alertB).length = [alertA].length ∧
          alertB ∈ insertOrReplaceAlert [alertA] alertB ∧
          ∀ b ∈ insertOrReplaceAlert [alertA] alertB, b.id = alertB.id → b = alertB) ∧
      AlertIdsNodup (storeAlerts [alertA] [] "p") ∧
      AlertIdsNodup (acknowledgeAlert [alertA] "x") :=
  alert_store_ids_unique [alertA] alertB [] "p" "x" (by decide)

/-- Per-column completeness of _analyze_completeness (line 248): the count
of non-null entries over the number of rows, zero when the frame is empty. -/
def columnCompleteness (nonNull total : Nat) : ℚ :=
  if total > 0 then (nonNull : ℚ) / (total : ℚ) else 0

/-- A completeness metric passes exactly when its value reaches the
threshold (line 249). -/
def completenessStatus (value threshold : ℚ) : MetricStatus :=
  if value ≥ threshold then MetricStatus.pass else MetricStatus.fail

/-- The per-column completeness metric built in lines 247-260. -/
def columnCompletenessMetric (column : String) (nonNull total : Nat)
    (threshold : ℚ) (t : String) : QualityMetric :=
  { name := "completeness_" ++ column
    value := columnCompleteness nonNull total
    threshold := threshold
    metric_type := MetricType.completeness
    status := completenessStatus (columnCompleteness nonNull total) threshold
    message := "column completeness"
    timestamp := t }

theorem generateAlerts_eq_filter_map (metrics : List QualityMetric) (p : String) :
    generateAlerts metrics p =
      (metrics.filter (fun m => m.status == MetricStatus.fail)).map (mkAlert p) := by
  induction metrics with
  | nil => rfl
  | cons m rest ih =>
    unfold generateAlerts at ih ⊢
    cases hst : m.status with
    | pass => simp [List.filterMap_cons, List.filter_cons, hst, ih]
    | fail => simp [List.filterMap_cons, List.filter_cons, hst, ih]

theorem alertLevelFor_critical_iff (m : QualityMetric) :
    alertLevelFor m = AlertLevel.critical ↔ m.value < m.threshold * (1/2) := by
  unfold alertLevelFor
  by_cases h1 : m.value < m.threshold * (1/2)
  · rw [if_pos h1]
    exact ⟨fun _ => h1, fun _ => rfl⟩
  · rw [if_neg h1]
    by_cases h2 : m.value < m.threshold * (4/5)
    · rw [if_pos h2]
      exact ⟨fun h => absurd h (by decide), fun h => absurd h h1⟩
    · rw [if_neg h2]
      exact ⟨fun h => absurd h (by decide), fun h => absurd h h1⟩

theorem alertLevelFor_error_iff (m : QualityMetric) :
    alertLevelFor m = AlertLevel.error ↔
      m.threshold * (1/2) ≤ m.value ∧ m.value < m.threshold * (4/5) := by
  unfold alertLevelFor
  by_cases h1 : m.value < m.threshold * (1/2)
  · rw [if_pos h1]
    exact ⟨fun h => absurd h (by decide), fun h => absurd h1 (not_lt_of_le h.1)⟩
  · rw [if_neg h1]
    by_cases h2 : m.value < m.threshold * (4/5)
    · rw [if_pos h2]
      exact ⟨fun _ => ⟨le_of_not_lt h1, h2⟩, fun _ => rfl⟩
    · rw [if_neg h2]
      exact ⟨fun h => absurd h (by decide), fun h => absurd h.2 h2⟩

theorem alertLevelFor_warning_iff (m : QualityMetric) :
    alertLevelFor m = AlertLevel.warning ↔
      ¬(m.value < m.threshold * (1/2)) ∧
        ¬(m.threshold * (1/2) ≤ m.value ∧ m.value < m.threshold * (4/5)) := by
  unfold alertLevelFor
  by_cases h1 : m.value < m.threshold * (1/2)
  · rw [if_pos h1]
    exact ⟨fun h => absurd h (by decide), fun h => absurd h1 h.1⟩
  · rw [if_neg h1]
    by_cases h2 : m.value < m.threshold * (4/5)
    · rw [if_pos h2]
      exact ⟨fun h => absurd h (by decide),
        fun h => absurd ⟨le_of_not_lt h1, h2⟩ h.2⟩
    · rw [if_neg h2]
      exact ⟨fun _ => ⟨h1, fun hc => h2 hc.2⟩, fun _ => rfl⟩

theorem email90_value :
    (columnCompletenessMetric "email" 90 100 (19/20) "t").value = 9/10 := by
  unfold columnCompletenessMetric columnCompleteness
  rw [if_pos (by norm_num)]
  norm_num

theorem email90_threshold :
    (columnCompletenessMetric "email" 90 100 (19/20) "t").threshold = 19/20 :=
  rfl

theorem email90_status :
    (columnCompletenessMetric "email" 90 100 (19/20) "t").status =
      MetricStatus.fail := by
  unfold columnCompletenessMetric completenessStatus columnCompleteness
  rw [if_pos (by norm_num)]
  rw [if_neg (by norm_num)]

theorem email40_value :
    (columnCompletenessMetric "email" 40 100 (19/20) "t").value = 2/5 := by
  unfold columnCompletenessMetric columnCompleteness
  rw [if_pos (by norm_num)]
  norm_num

theorem mkAlert_level (p : String) (m : QualityMetric) :
    (mkAlert p m).level = alertLevelFor m :=
  rfl

/-- C5: for a failed quality metric the generated alert is tiered by how far
the value sits below the threshold: critical when the value is below half
the threshold, error when at least half but below eight tenths, warning
otherwise; the email-completeness scenario of 90 non-null values out of 100
against threshold 19/20 yields value 9/10, status fail, exactly one alert
and that alert has level warning, while the 40 out of 100 variant yields a
critical alert; metrics with status pass generate no alert (the generated
list is exactly the failed metrics, each mapped to its alert). -/
theorem alert_levels_tiered (p : String) (metrics : List QualityMetric)
    (m : QualityMetric) :
    (m.status = MetricStatus.fail →
      ((mkAlert p m).level = AlertLevel.critical ↔
          m.value < m.threshold * (1/2)) ∧
        ((mkAlert p m).level = AlertLevel.error ↔
          m.threshold * (1/2) ≤ m.value ∧ m.value < m.threshold * (4/5)) ∧
        ((mkAlert p m).level = AlertLevel.warning ↔
          ¬(m.value < m.threshold * (1/2)) ∧
            ¬(m.threshold * (1/2) ≤ m.value ∧ m.value < m.threshold * (4/5)))) ∧
      generateAlerts metrics p =
        (metrics.filter (fun m2 => m2.status == MetricStatus.fail)).map
          (mkAlert p) ∧
      (columnCompletenessMetric "email" 90 100 (19/20) "t").value = 9/10 ∧
      (columnCompletenessMetric "email" 90 100 (19/20) "t").status =
        MetricStatus.fail ∧
      generateAlerts [columnCompletenessMetric "email" 90 100 (19/20) "t"] p =
        [mkAlert p (columnCompletenessMetric "email" 90 100 (19/20) "t")] ∧
      (mkAlert p (columnCompletenessMetric "email" 90 100 (19/20) "t")).level =
        AlertLevel.warning ∧
      (mkAlert p (columnCompletenessMetric "email" 40 100 (19/20) "t")).level =
        AlertLevel.critical := by
  refine ⟨?_, generateAlerts_eq_filter_map metrics p, email90_value,
    email90_status, ?_, ?_, ?_⟩
  · intro _
    exact ⟨alertLevelFor_critical_iff m, alertLevelFor_error_iff m,
      alertLevelFor_warning_iff m⟩
  · simp [generateAlerts, email90_status]
  · rw [mkAlert_level]
    rw [alertLevelFor_warning_iff]
    rw [email90_value, email90_threshold]
    norm_num
  · rw [mkAlert_level]
    rw [alertLevelFor_critical_iff]
    rw [email40_value]
    show (2/5 : ℚ) < (19/20 : ℚ) * (1/2)
    norm_num

/-- Witness for C5: the tier characterization applied to the concrete failed
email-completeness metric with value 9/10 against threshold 19/20. -/
theorem alert_levels_tiered_witness :
    ((mkAlert "p" (columnCompletenessMetric "email" 90 100 (19/20) "t")).level =
        AlertLevel.critical ↔
      (columnCompletenessMetric "email" 90 100 (19/20) "t").value <
        (columnCompletenessMetric "email" 90 100 (19/20) "t").threshold * (1/2)) :=
  ((alert_levels_tiered "p" [] (columnCompletenessMetric "email" 90 100 (19/20) "t")).1
    email90_status).1

/-- A persisted quality_metrics row as the health-score query reads it:
pipeline name, metric type, value, and a timestamp in epoch seconds. -/
structure MetricRow where
  pipeline_name : String
  metric_type : MetricType
  metric_value : ℚ
  timestamp : ℤ
deriving DecidableEq

/-- The WHERE clause of the health-score query (lines 610-615): rows of the
given pipeline whose timestamp lies within the trailing 24 hours. -/
def rowsInWindow (tbl : List MetricRow) (p : String) (now : ℤ) : List MetricRow :=
  tbl.filter (fun r => r.pipeline_name == p && decide (now - 86400 ≤ r.timestamp))

/-- The GROUP BY metric_type of the query: the distinct metric types of the
selected rows. -/
def typesPresent (rows : List MetricRow) : List MetricType :=
  (rows.map MetricRow.metric_type).dedup

/-- The values of the selected rows of one metric type. -/
def valuesOfType (rows : List MetricRow) (t : MetricType) : List ℚ :=
  (rows.filter (fun r => r.metric_type == t)).map MetricRow.metric_value

/-- The AVG aggregate of the query. -/
def avgValue (l : List ℚ) : ℚ :=
  l.sum / (l.length : ℚ)

/-- The weight lookup of calculate_pipeline_health_score (lines 623-637):
weights.get(metric_type, 0.1).  The dict lists completeness and accuracy at
a quarter, validity at a fifth, consistency and uniqueness at three
twentieths; the only enum type outside the dict is timeliness, which falls
back to the 0.1 default. -/
def healthWeight : MetricType → ℚ
  | MetricType.completeness => 1/4
  | MetricType.accuracy => 1/4
  | MetricType.validity => 1/5
  | MetricType.consistency => 3/20
  | MetricType.uniqueness => 3/20
  | MetricType.timeliness => 1/10

/-- calculate_pipeline_health_score (lines 604-653): select the pipeline
rows of the trailing 24 hours; with no rows return 1.0; otherwise sum, per
distinct metric type, the average value times its weight, and divide by the
summed weights when they are positive (1.0 otherwise). -/
def calculatePipelineHealthScore (tbl : List MetricRow) (p : String)
    (now : ℤ) : ℚ :=
  let rows := rowsInWindow tbl p now
  if rows.isEmpty then 1
  else
    let ts := typesPresent rows
    let weighted := (ts.map
      (fun t => avgValue (valuesOfType rows t) * healthWeight t)).sum
    let total := (ts.map healthWeight).sum
    if 0 < total then weighted / total else 1

/-- Modelled from the specification wording for comparison: the fixed
weights the specification lists for the five named metric types; the
specification assigns no weight to timeliness, so it is zero here. -/
def specWeight : MetricType → ℚ
  | MetricType.completeness => 1/4
  | MetricType.accuracy => 1/4
  | MetricType.validity => 1/5
  | MetricType.consistency => 3/20
  | MetricType.uniqueness => 3/20
  | MetricType.timeliness => 0

/-- Modelled from the specification wording for comparison: the weighted
average of the per-type means over the window, the sum of weight times mean
divided by the sum of the weights of the types present, defaulting to 1.0
with no data. -/
def specHealthScore (tbl : List MetricRow) (p : String) (now : ℤ) : ℚ :=
  let rows := rowsInWindow tbl p now
  if rows.isEmpty then 1
  else
    ((typesPresent rows).map
        (fun t => specWeight t * avgValue (valuesOfType rows t))).sum /
      ((typesPresent rows).map specWeight).sum

theorem specWeight_nonneg (t : MetricType) : 0 ≤ specWeight t := by
  cases t <;> norm_num [specWeight]

theorem specWeight_eq_healthWeight (t : MetricType)
    (h : t ≠ MetricType.timeliness) : specWeight t = healthWeight t := by
  cases t <;> first
    | exact absurd rfl h
    | rfl

theorem specWeight_pos (t : MetricType) (h : t ≠ MetricType.timeliness) :
    0 < specWeight t := by
  cases t <;> first
    | exact absurd rfl h
    | norm_num [specWeight]

theorem sum_specWeight_nonneg (ts : List MetricType) :
    0 ≤ (ts.map specWeight).sum := by
  induction ts with
  | nil => simp
  | cons t rest ih =>
    simp only [List.map_cons, List.sum_cons]
    have := specWeight_nonneg t
    linarith

theorem sum_specWeight_pos (ts : List MetricType) (hne : ts ≠ [])
    (h : ∀ t ∈ ts, t ≠ MetricType.timeliness) :
    0 < (ts.map specWeight).sum := by
  cases ts with
  | nil => exact absurd rfl hne
  | cons t rest =>
    simp only [List.map_cons, List.sum_cons]
    have h1 := specWeight_pos t (h t (List.mem_cons_self t rest))
    have h2 := sum_specWeight_nonneg rest
    linarith

/-- C7: calculate_pipeline_health_score returns 1.0 when no quality metrics
exist for the pipeline in the trailing 24-hour window; otherwise, for
windows whose rows carry only the five weighted metric types (the only
types the monitor ever stores), it returns the weighted average of the
per-type means with the fixed weights a quarter for completeness and
accuracy, a fifth for validity, and three twentieths for consistency and
uniqueness, divided by the summed weights of the types present. -/
theorem health_score_matches_spec (tbl : List MetricRow) (p : String)
    (now : ℤ) :
    (rowsInWindow tbl p now = [] →
        calculatePipelineHealthScore tbl p now = 1) ∧
      ((∀ r ∈ rowsInWindow tbl p now, r.metric_type ≠ MetricType.timeliness) →
        calculatePipelineHealthScore tbl p now = specHealthScore tbl p now) := by
  constructor
  · intro hempty
    unfold calculatePipelineHealthScore
    rw [hempty]
    rfl
  · intro hnotl
    cases hrows : rowsInWindow tbl p now with
    | nil =>
      unfold calculatePipelineHealthScore specHealthScore
      rw [hrows]
      rfl
    | cons r0 rrest =>
      rw [hrows] at hnotl
      have hts : ∀ t ∈ typesPresent (r0 :: rrest), t ≠ MetricType.timeliness := by
        intro t ht
        unfold typesPresent at ht
        rw [List.mem_dedup] at ht
        obtain ⟨r, hr, hrt⟩ := List.mem_map.mp ht
        rw [← hrt]
        exact hnotl r hr
      have htsne : typesPresent (r0 :: rrest) ≠ [] := by
        unfold typesPresent
        intro hcon
        have : r0.metric_type ∈ ((r0 :: rrest).map MetricRow.metric_type).dedup := by
          rw [List.mem_dedup]
          exact List.mem_map.mpr ⟨r0, List.mem_cons_self r0 rrest, rfl⟩
        rw [hcon] at this
        exact absurd this (List.not_mem_nil _)
      have hwmap : (typesPresent (r0 :: rrest)).map specWeight =
          (typesPresent (r0 :: rrest)).map healthWeight :=
        List.map_congr_left (fun t ht => specWeight_eq_healthWeight t (hts t ht))
      have hvmap : (typesPresent (r0 :: rrest)).map
            (fun t => specWeight t * avgValue (valuesOfType (r0 :: rrest) t)) =
          (typesPresent (r0 :: rrest)).map
            (fun t => avgValue (valuesOfType (r0 :: rrest) t) * healthWeight t) :=
        List.map_congr_left (fun t ht => by
          rw [specWeight_eq_healthWeight t (hts t ht), mul_comm])
      have hpos : 0 < ((typesPresent (r0 :: rrest)).map healthWeight).sum := by
        have := sum_specWeight_pos (typesPresent (r0 :: rrest)) htsne hts
        rw [hwmap] at this
        exact this
      unfold calculatePipelineHealthScore specHealthScore
      rw [hrows]
      simp only [List.isEmpty_cons]
      rw [if_neg (by simp), if_pos hpos, if_neg (by simp), hwmap, hvmap]

/-- A concrete stored completeness metric row. -/
def mrowC : MetricRow :=
  { pipeline_name := "p"
    metric_type := MetricType.completeness
    metric_value := 9/10
    timestamp := 0 }

/-- Witness for C7 on a one-row window and on an empty window. -/
theorem health_score_matches_spec_witness :
    calculatePipelineHealthScore [mrowC] "p" 0 = specHealthScore [mrowC] "p" 0 ∧
      calculatePipelineHealthScore [] "q" 0 = 1 :=
  ⟨(health_score_matches_spec [mrowC] "p" 0).2 (by decide),
    (health_score_matches_spec [] "q" 0).1 rfl⟩

/-- A registry entry of the scheduler (ScheduledPipeline), reduced to the
fields the dispatch logic of execute_pipeline reads. -/
structure SchedEntry where
  name : String
  enabled : Bool
deriving DecidableEq, Repr

/-- The structured status values execute_pipeline returns before any run
starts, plus the marker that dispatch proceeds to the actual execution. -/
inductive DispatchStatus
  | statusDisabled
  | statusAlreadyRunning
  | proceed
deriving DecidableEq, Repr

/-- The dispatch prefix of PipelineScheduler.execute_pipeline
(pipeline_scheduler.py lines 218-231): an unknown pipeline name raises
ValueError (modelled as Except.error); a disabled pipeline on a non-manual
invocation returns the status value disabled; a name already in the
running-set returns the status value already_running; otherwise execution
proceeds. -/
def PipelineScheduler.executePipeline (registry : List (String × SchedEntry))
    (running : List String) (pipeline_name : String) (manual : Bool) :
    Except String DispatchStatus :=
  match registry.lookup pipeline_name with
  | none => .error ("Pipeline not found: " ++ pipeline_name)
  | some sp =>
    if !sp.enabled && !manual then .ok DispatchStatus.statusDisabled
    else if running.contains pipeline_name then
      .ok DispatchStatus.statusAlreadyRunning
    else .ok DispatchStatus.proceed

/-- C8 counterexample: invoking execute_pipeline with a name absent from the
registry raises ValueError instead of returning a structured status value. -/
theorem scheduler_statuses_not_exceptions_cex :
    PipelineScheduler.executePipeline [] [] "X" false =
      .error "Pipeline not found: X" :=
  rfl

/-- Dispatch of execute_pipeline on a registered name: the raise branch is
not taken and the two status checks run in order. -/
theorem executePipeline_some (registry : List (String × SchedEntry))
    (running : List String) (nm : String) (manual : Bool) (sp : SchedEntry)
    (hsome : registry.lookup nm = some sp) :
    PipelineScheduler.executePipeline registry running nm manual =
      (if !sp.enabled && !manual then .ok DispatchStatus.statusDisabled
        else if running.contains nm then .ok DispatchStatus.statusAlreadyRunning
        else .ok DispatchStatus.proceed) := by
  unfold PipelineScheduler.executePipeline
  rw [hsome]

/-- C8 (amended): the disabled and already-running conditions are reported
by returning structured status values and a registered name never makes the
dispatch raise, but a pipeline name that is not registered raises
ValueError rather than returning a status value. -/
theorem scheduler_statuses_amended (registry : List (String × SchedEntry))
    (running : List String) (nm : String) (manual : Bool) :
    (registry.lookup nm = none →
        PipelineScheduler.executePipeline registry running nm manual =
          .error ("Pipeline not found: " ++ nm)) ∧
      (∀ sp, registry.lookup nm = some sp →
        ∃ o, PipelineScheduler.executePipeline registry running nm manual = .ok o) ∧
      (∀ sp, registry.lookup nm = some sp → sp.enabled = false → manual = false →
        PipelineScheduler.executePipeline registry running nm manual =
          .ok DispatchStatus.statusDisabled) ∧
      (∀ sp, registry.lookup nm = some sp → (sp.enabled || manual) = true →
        nm ∈ running →
        PipelineScheduler.executePipeline registry running nm manual =
          .ok DispatchStatus.statusAlreadyRunning) := by
  refine ⟨?_, ?_, ?_, ?_⟩
  · intro hnone
    unfold PipelineScheduler.executePipeline
    rw [hnone]
  · intro sp hsome
    rw [executePipeline_some registry running nm manual sp hsome]
    by_cases h1 : (!sp.enabled && !manual) = true
    · rw [if_pos h1]; exact ⟨_, rfl⟩
    · rw [if_neg h1]
      by_cases h2 : running.contains nm = true
      · rw [if_pos h2]; exact ⟨_, rfl⟩
      · rw [if_neg h2]; exact ⟨_, rfl⟩
  · intro sp hsome hdis hman
    rw [executePipeline_some registry running nm manual sp hsome]
    rw [if_pos (by rw [hdis, hman]; rfl)]
  · intro sp hsome hen hrun
    rw [executePipeline_some registry running nm manual sp hsome]
    have hcond : ¬((!sp.enabled && !manual) = true) := by
      cases hsp : sp.enabled with
      | true => simp [hsp]
      | false =>
        cases hmanual : manual with
        | true => simp [hmanual]
        | false =>
          rw [hsp, hmanual] at hen
          exact absurd hen (by decide)
    rw [if_neg hcond]
    rw [if_pos (List.elem_eq_true_of_mem hrun)]

/-- A concrete disabled registry entry. -/
def nightlyEntry : SchedEntry := { name := "nightly", enabled := false }

/-- Witness for the amended C8: a disabled pipeline invoked non-manually
gets the disabled status; an unknown name raises. -/
theorem scheduler_statuses_amended_witness :
    PipelineScheduler.executePipeline [("nightly", nightlyEntry)] [] "nightly"
        false = .ok DispatchStatus.statusDisabled ∧
      PipelineScheduler.executePipeline [("nightly", nightlyEntry)] [] "hourly"
        false = .error ("Pipeline not found: " ++ "hourly") :=
  ⟨(scheduler_statuses_amended [("nightly", nightlyEntry)] [] "nightly"
      false).2.2.1 nightlyEntry (by decide) rfl rfl,
    (scheduler_statuses_amended [("nightly", nightlyEntry)] [] "hourly"
      false).1 (by decide)⟩
